/-
Verification development for the Project Chimera orchestration engine.

The definitions below are a shallow embedding of the orchestrator core
(registry.ts, planner.ts, executor.ts, index.ts of the orchestrator) and of
the log-analyzer agent's /analyze handler (agents/log-analyzer/src/index.ts).
JavaScript Maps and string-keyed objects are modelled as insertion-ordered
association lists; the network is modelled as an explicit call oracle passed
to the executor; the module-level regular-expression objects of the
log-analyzer (which carry a mutable lastIndex because of their /g flag) are
modelled by threading their lastIndex values as explicit state.
-/
import Mathlib

namespace Chimera

/-- Tool descriptor, from types.ts (`Tool`). -/
structure Tool where
  name : String
  description : String
  input : String
deriving DecidableEq

/-- Agent descriptor, from types.ts (`AgentInfo`). -/
structure AgentInfo where
  name : String
  url : String
  tools : List Tool
deriving DecidableEq

/-- A step of an execution plan, from types.ts (`PlanStep`). -/
structure PlanStep where
  agent : String
  task : String
  inputFrom : String
  dependsOn : Option String
deriving DecidableEq

/-- Keys of an association list. -/
def keys {β : Type} (m : List (String × β)) : List String := m.map Prod.fst

/-- Lookup in an insertion-ordered association list; models `Map.get` /
string-keyed object indexing (own properties). -/
def assocLookup {β : Type} : List (String × β) → String → Option β
  | [], _ => none
  | p :: rest, k => if p.1 = k then some p.2 else assocLookup rest k

/-- Insert-or-replace in an insertion-ordered association list; models
`Map.set` / object property assignment: an existing key keeps its position
and gets the new value, a new key is appended at the end. -/
def assocSet {β : Type} : List (String × β) → String → β → List (String × β)
  | [], k, v => [(k, v)]
  | p :: rest, k, v => if p.1 = k then (k, v) :: rest else p :: assocSet rest k v

/-- The registry state: the `Map<string, AgentInfo>` of registry.ts. -/
abbrev Registry := List (String × AgentInfo)

/-- `AgentRegistry.register` from registry.ts: `this.agents.set(agentInfo.name, agentInfo)`. -/
def register (m : Registry) (a : AgentInfo) : Registry := assocSet m a.name a

/-- `AgentRegistry.get` from registry.ts. -/
def lookupAgent (m : Registry) (n : String) : Option AgentInfo := assocLookup m n

/-- `AgentRegistry.getAll` from registry.ts: `Array.from(this.agents.values())`. -/
def getAll (m : Registry) : List AgentInfo := m.map Prod.snd

/-- Boolean test that `needle` is a prefix of the second list (character
equality). Helper for the planner's substring tests. -/
def isPrefixCh : List Char → List Char → Bool
  | [], _ => true
  | _ :: _, [] => false
  | a :: as, b :: bs => a == b && isPrefixCh as bs

/-- Boolean substring test: `needle` occurs contiguously in the haystack. -/
def containsSub (needle : List Char) : List Char → Bool
  | [] => needle.isEmpty
  | c :: rest => isPrefixCh needle (c :: rest) || containsSub needle rest

/-- `request.toLowerCase()` as a character list (planner.ts line
`const lowerRequest = request.toLowerCase()`). -/
def lowerChars (r : String) : List Char := r.data.map Char.toLower

/-- Case-insensitive keyword test against the whole request: the planner's
regexes are alternations of plain (lower-case) literals applied to the
lowercased request, hence plain substring tests. -/
def hasKw (r : String) (kw : String) : Bool := containsSub kw.data (lowerChars r)

/-- planner.ts: `/sanitize|sensitive|pii|personal/i.test(lowerRequest)`. -/
def needsSanitizer (r : String) : Bool :=
  hasKw r ("sanitize") || hasKw r ("sensitive") || hasKw r ("pii") || hasKw r ("personal")

/-- planner.ts: `/logs?|analyze|errors?|warnings?/i.test(lowerRequest)`.
An alternative with an optional trailing `s?` matches exactly when its stem
occurs, so each alternative is the substring test of its stem. -/
def needsLogAnalyst (r : String) : Bool :=
  hasKw r ("log") || hasKw r ("analyze") || hasKw r ("error") || hasKw r ("warning")

/-- planner.ts: `/summary|report|visual|brief|chart/i.test(lowerRequest)`. -/
def needsReport (r : String) : Bool :=
  hasKw r ("summary") || hasKw r ("report") || hasKw r ("visual") || hasKw r ("brief") || hasKw r ("chart")

/-- `Planner.generatePlan` from planner.ts: keyword classification, then the
three appends in source order (log-analyzer; report-generator with or without
the dependency; sanitizer only when nothing else matched). -/
def generatePlan (request : String) : List PlanStep :=
  let plan1 :=
    if needsLogAnalyst request then
      [PlanStep.mk ("log-analyzer") ("analyze") ("user") none]
    else []
  let plan2 :=
    if needsReport request && needsLogAnalyst request then
      plan1 ++ [PlanStep.mk ("report-generator") ("generate") ("log-analyzer") (some ("log-analyzer"))]
    else if needsReport request then
      plan1 ++ [PlanStep.mk ("report-generator") ("generate") ("user") none]
    else plan1
  if needsSanitizer request && !needsLogAnalyst request && !needsReport request then
    plan2 ++ [PlanStep.mk ("sanitizer") ("sanitize") ("user") none]
  else plan2

/-- `Executor.getEndpointForTask` from executor.ts: the static endpoint table
with fallback `/` ++ task. -/
def getEndpointForTask (agent : String) (task : String) : String :=
  if agent = ("sanitizer") then ("/sanitize")
  else if agent = ("log-analyzer") then ("/analyze")
  else if agent = ("report-generator") then ("/generate-report")
  else ("/") ++ task

/-- The executor's environment: `call` is the network oracle for one
`axios.post` to an agent (argument order: resolved agent descriptor, endpoint
path, request payload; an `error` value models a network error, timeout or
non-2xx status, which axios surfaces as a thrown error). `truthy` is
JavaScript truthiness of a stored payload (used by the executor's
`if (!input)` dependency check), and `traceOf` models
`JSON.stringify(response.data.summary || response.data.message || 'completed')`. -/
structure ExecEnv (α : Type) where
  call : AgentInfo → String → α → Except String α
  truthy : α → Bool
  traceOf : α → String

/-- Outcome of `executePlan`: the success value `{success: true, results,
executionTrace}`, or the message of the thrown error. -/
inductive Outcome (α : Type) where
  | ok : List (String × α) → List String → Outcome α
  | err : String → Outcome α
deriving DecidableEq

/-- Result of running the executor, together with a ghost log of the agents
actually dispatched (the `axios.post` calls issued), in order. The ghost log
is instrumentation for stating the fail-fast properties; it is not a field of
the source's return value. -/
structure ExecResult (α : Type) where
  outcome : Outcome α
  dispatched : List String
deriving DecidableEq

/-- Error message of executor.ts line `Agent ${step.agent} not found in registry`. -/
def notFoundMsg (a : String) : String := ("Agent ") ++ a ++ (" not found in registry")

/-- Error message of executor.ts line `Dependency not met: ${step.inputFrom} has no results`. -/
def depErrMsg (src : String) : String := ("Dependency not met: ") ++ src ++ (" has no results")

/-- Error message of executor.ts line `Failed to execute ${step.agent}: ${errorMsg}`. -/
def failMsg (a : String) (msg : String) : String := ("Failed to execute ") ++ a ++ (": ") ++ msg

/-- A trace line `${step.agent}: ...` pushed onto the execution trace. -/
def traceEntry (a : String) (t : String) : String := a ++ (": ") ++ t

/-- Input resolution of one step (executor.ts lines 24-33): `user` takes the
initial payload unconditionally; otherwise the step reads
`results[step.inputFrom]` and the executor throws the dependency error when
that read yields nothing or a falsy value (`if (!input)`). -/
def resolveInput {α : Type} (truthy : α → Bool) (init : α) (results : List (String × α)) (s : PlanStep) : Except String α :=
  if s.inputFrom = ("user") then Except.ok init
  else
    match assocLookup results s.inputFrom with
    | some v => if truthy v then Except.ok v else Except.error (depErrMsg s.inputFrom)
    | none => Except.error (depErrMsg s.inputFrom)

/-- The executor's loop over the remaining steps (executor.ts lines 12-62),
from an intermediate `results`/`executionTrace` state. Each iteration:
registry lookup (absence throws), input resolution (see `resolveInput`),
dispatch via the call oracle (failure throws `Failed to execute ...`),
then the response is stored under the agent's name and a trace line appended.
An empty remainder returns the success record. `dispatched` collects the
dispatches made from this point on. -/
def execSteps {α : Type} (env : ExecEnv α) (reg : Registry) (init : α) : List PlanStep → List (String × α) → List String → ExecResult α
  | [], results, trace => ⟨Outcome.ok results trace, []⟩
  | s :: rest, results, trace =>
    match lookupAgent reg s.agent with
    | none => ⟨Outcome.err (notFoundMsg s.agent), []⟩
    | some info =>
      match resolveInput env.truthy init results s with
      | Except.error e => ⟨Outcome.err e, []⟩
      | Except.ok input =>
        match env.call info (getEndpointForTask s.agent s.task) input with
        | Except.error e => ⟨Outcome.err (failMsg s.agent e), [s.agent]⟩
        | Except.ok resp =>
          let r := execSteps env reg init rest (assocSet results s.agent resp) (trace ++ [traceEntry s.agent (env.traceOf resp)])
          ⟨r.outcome, s.agent :: r.dispatched⟩

/-- `Executor.executePlan` from executor.ts: run the whole plan from the
empty results/trace state. -/
def executePlan {α : Type} (env : ExecEnv α) (reg : Registry) (plan : List PlanStep) (init : α) : ExecResult α :=
  execSteps env reg init plan [] []

/-- Request body of POST /plan-and-run (types.ts `PlanAndRunRequest`):
`request` is absent (`none`) or present, `data` is optional and of payload type. -/
structure PlanRunBody (α : Type) where
  request : Option String
  data : Option α
deriving DecidableEq

/-- The responses the /plan-and-run boundary can produce (orchestrator
index.ts lines 172-218): the 400 missing-field rejection, the
no-agents-matched 200 response (carrying its literal message, empty plan and
empty results), the success 200 response `{request, plan, results,
executionTrace}` (spread of the executor's success value), and the 500 error
response. -/
inductive PlanRunResponse (α : Type) where
  | badRequest : String → PlanRunResponse α
  | noAgents : String → List PlanStep → List (String × α) → PlanRunResponse α
  | ok : String → List PlanStep → List (String × α) → List String → PlanRunResponse α
  | serverError : String → PlanRunResponse α
deriving DecidableEq

/-- Message of the 400 rejection in index.ts line 177. -/
def missingRequestMsg : String := "Missing required field: request"

/-- Message of the empty-plan 200 response in index.ts line 189. -/
def noAgentsMsg : String := "No agents matched the request"

/-- Finishing half of the /plan-and-run handler once the executor has been
invoked: a success outcome becomes the 200 response, a thrown error the 500
response. Paired with the ghost dispatch log. -/
def runPlanWith {α : Type} (env : ExecEnv α) (reg : Registry) (r : String) (plan : List PlanStep) (init : α) : PlanRunResponse α × List String :=
  let er := executePlan env reg plan init
  match er.outcome with
  | Outcome.ok results trace => (PlanRunResponse.ok r plan results trace, er.dispatched)
  | Outcome.err msg => (PlanRunResponse.serverError msg, er.dispatched)

/-- The POST /plan-and-run handler (orchestrator index.ts lines 172-218).
`if (!request)` rejects an absent or empty request string with the 400
response; an empty generated plan short-circuits to the no-agents 200
response without touching the executor; otherwise the executor runs with
initial payload `data || request` (`toPayload` embeds the request string into
the payload type; a falsy supplied `data` falls back to it). The second
component is the ghost log of dispatched calls. -/
def planAndRun {α : Type} (env : ExecEnv α) (reg : Registry) (toPayload : String → α) (body : PlanRunBody α) : PlanRunResponse α × List String :=
  match body.request with
  | none => (PlanRunResponse.badRequest missingRequestMsg, [])
  | some r =>
    if r = ("") then (PlanRunResponse.badRequest missingRequestMsg, [])
    else
      let plan := generatePlan r
      if plan = [] then (PlanRunResponse.noAgents noAgentsMsg [] [], [])
      else
        let init :=
          match body.data with
          | none => toPayload r
          | some v => if env.truthy v then v else toPayload r
        runPlanWith env reg r plan init

/-- JavaScript word character (the `\w` class of the log-analyzer's
patterns): ASCII letter, digit or underscore. -/
def isWordChar (c : Char) : Bool := c.isAlphanum || c == '_'

/-- Whether position `i` of the character list holds a word character. -/
def wordAt (s : List Char) (i : Nat) : Bool :=
  match s.get? i with
  | some c => isWordChar c
  | none => false

/-- JavaScript `\b` at position `i`: exactly one of the adjacent positions
holds a word character (positions outside the string count as non-word). -/
def boundary (s : List Char) (i : Nat) : Bool :=
  (match i with
   | 0 => false
   | j + 1 => wordAt s j) != wordAt s i

/-- Case-insensitive prefix test of a (lower-case) pattern word against the
text: used for one alternative of a `\b(w1|w2|...)\b` pattern. -/
def ciStarts : List Char → List Char → Bool
  | [], _ => true
  | _ :: _, [] => false
  | p :: ps, t :: ts => t.toLower == p && ciStarts ps ts

/-- Try the alternatives of a `\b(...)\b` group at position `i`, in
alternation order (JavaScript tries alternatives left to right and
backtracks into the alternation when the trailing `\b` fails). Returns the
end position of the first alternative that matches with a word boundary
after it. The leading boundary is checked by the caller. -/
def tryWordsAt (s : List Char) (i : Nat) : List (List Char) → Option Nat
  | [] => none
  | w :: ws =>
    if ciStarts w (s.drop i) && boundary s (i + w.length) then some (i + w.length)
    else tryWordsAt s i ws

/-- A full match of `\b(w1|w2|...)\b` starting exactly at position `i`. -/
def matchAt (s : List Char) (i : Nat) (words : List (List Char)) : Option Nat :=
  if boundary s i then tryWordsAt s i words else none

/-- Scan positions `i, i+1, ...` (bounded by the fuel) for the leftmost
match; returns the end position of the match found there. -/
def searchFrom (s : List Char) (words : List (List Char)) : Nat → Nat → Option Nat
  | _, 0 => none
  | i, fuel + 1 =>
    match matchAt s i words with
    | some e => some e
    | none => searchFrom s words (i + 1) fuel

/-- `regex.test(line)` for a `/\b(w1|w2|...)\b/gi` regular expression with
current `lastIndex`: the search starts at `lastIndex`; on a match the new
`lastIndex` is the match end and the result is true; otherwise (including
`lastIndex` beyond the string) `lastIndex` resets to 0 and the result is
false. Returns (result, new lastIndex). -/
def jsTestG (words : List (List Char)) (s : List Char) (lastIndex : Nat) : Bool × Nat :=
  match searchFrom s words lastIndex (s.length + 1 - lastIndex) with
  | some e => (true, e)
  | none => (false, 0)

/-- Alternatives of `ERROR_PATTERNS.critical` in source order. -/
def critWords : List (List Char) :=
  [("fatal").data, ("critical").data, ("panic").data, ("crash").data, ("emergency").data]

/-- Alternatives of `ERROR_PATTERNS.error` in source order. -/
def errWords : List (List Char) :=
  [("error").data, ("failed").data, ("failure").data, ("exception").data]

/-- Alternatives of `ERROR_PATTERNS.warning` in source order. -/
def warnWords : List (List Char) :=
  [("warning").data, ("warn").data, ("deprecated").data, ("caution").data]

/-- Alternatives of `ERROR_PATTERNS.info` in source order. -/
def infoWords : List (List Char) :=
  [("info").data, ("notice").data, ("debug").data]

/-- The `lastIndex` values of the four module-level `ERROR_PATTERNS`
regular expressions (they are stateful because of their `/g` flag). -/
structure RegexStates where
  crit : Nat
  err : Nat
  warn : Nat
  inf : Nat
deriving DecidableEq

/-- Fresh regex state (a newly started log-analyzer process). -/
def initialRegexStates : RegexStates := ⟨0, 0, 0, 0⟩

/-- Classification of one line by the `if / else if` chain of the
/analyze handler. -/
inductive LineClass where
  | crit
  | err
  | warn
  | inf
  | other
deriving DecidableEq

/-- One iteration of `lines.forEach` in the /analyze handler: each pattern is
tested only when all earlier patterns failed on this line, and only the
patterns actually tested update their `lastIndex`. -/
def classifyLine (st : RegexStates) (line : List Char) : LineClass × RegexStates :=
  let rc := jsTestG critWords line st.crit
  let st := { st with crit := rc.2 }
  if rc.1 then (LineClass.crit, st)
  else
    let re := jsTestG errWords line st.err
    let st := { st with err := re.2 }
    if re.1 then (LineClass.err, st)
    else
      let rw := jsTestG warnWords line st.warn
      let st := { st with warn := rw.2 }
      if rw.1 then (LineClass.warn, st)
      else
        let ri := jsTestG infoWords line st.inf
        let st := { st with inf := ri.2 }
        if ri.1 then (LineClass.inf, st) else (LineClass.other, st)

/-- A findings entry `{line: index + 1, text: line.substring(0, 100)}`. -/
structure Finding where
  line : Nat
  text : String
deriving DecidableEq

/-- The counters and (unsliced) findings accumulated by `lines.forEach`. -/
structure AnalyzeCounts where
  criticalCount : Nat
  errorCount : Nat
  warningCount : Nat
  infoCount : Nat
  findCrit : List Finding
  findErr : List Finding
  findWarn : List Finding
deriving DecidableEq

/-- The `lines.forEach` loop of the /analyze handler, starting from regex
state `st` at 0-based line index `idx`. -/
def analyzeLinesAux (st : RegexStates) (idx : Nat) : List (List Char) → AnalyzeCounts
  | [] => ⟨0, 0, 0, 0, [], [], []⟩
  | l :: ls =>
    match classifyLine st l with
    | (c, st1) =>
      let rest := analyzeLinesAux st1 (idx + 1) ls
      match c with
      | LineClass.crit =>
        { rest with criticalCount := rest.criticalCount + 1,
                    findCrit := Finding.mk (idx + 1) (String.mk (l.take 100)) :: rest.findCrit }
      | LineClass.err =>
        { rest with errorCount := rest.errorCount + 1,
                    findErr := Finding.mk (idx + 1) (String.mk (l.take 100)) :: rest.findErr }
      | LineClass.warn =>
        { rest with warningCount := rest.warningCount + 1,
                    findWarn := Finding.mk (idx + 1) (String.mk (l.take 100)) :: rest.findWarn }
      | LineClass.inf => { rest with infoCount := rest.infoCount + 1 }
      | LineClass.other => rest

/-- `data.split('\n')` on character lists: splitting never yields an empty
list (splitting the empty string yields one empty piece, as in JavaScript). -/
def splitNlAux (sep : Char) : List Char → List Char → List (List Char)
  | [], acc => [acc.reverse]
  | c :: rest, acc => if c == sep then acc.reverse :: splitNlAux sep rest [] else splitNlAux sep rest (c :: acc)

/-- `s.split('\n')`. -/
def splitNl (s : List Char) : List (List Char) := splitNlAux ('\n') s []

/-- The `findings` object of the /analyze response (each list sliced to 5). -/
structure Findings where
  critical : List Finding
  errors : List Finding
  warnings : List Finding
deriving DecidableEq

/-- The `analysis` object of the /analyze response. -/
structure Analysis where
  totalLines : Nat
  critical : Nat
  errors : Nat
  warnings : Nat
  inf : Nat
  findings : Findings
deriving DecidableEq

/-- The `sanitization` annotation of the /analyze response
(`{count, message}` from the sanitizer's reply). -/
structure SanitizationInfo where
  count : Nat
  message : String
deriving DecidableEq

/-- The `agentToAgentCall` annotation of the /analyze response. -/
structure AgentToAgentCall where
  called : String
  url : String
  success : Bool
deriving DecidableEq

/-- The 200 response body of POST /analyze. -/
structure AnalyzeResponse where
  success : Bool
  analysis : Analysis
  sanitization : Option SanitizationInfo
  agentToAgentCall : AgentToAgentCall
  summary : String
  message : String
deriving DecidableEq

/-- The fields of a successful sanitizer reply that the log-analyzer reads
(`sanitized`, `count`, `message`). -/
structure SanitizeOk where
  sanitized : String
  count : Nat
  message : String
deriving DecidableEq

/-- The default `SANITIZER_URL` of the log-analyzer process. -/
def sanitizerURL : String := "http://localhost:5001"

/-- The analysis computed by the /analyze handler over a given text, from
regex state `st`: split into lines, run the forEach loop, package the counts,
slicing each findings list to its first 5 entries. -/
def analysisOf (st : RegexStates) (s : String) : Analysis :=
  let lines := splitNl s.data
  let counts := analyzeLinesAux st 0 lines
  { totalLines := lines.length,
    critical := counts.criticalCount,
    errors := counts.errorCount,
    warnings := counts.warningCount,
    inf := counts.infoCount,
    findings := ⟨counts.findCrit.take 5, counts.findErr.take 5, counts.findWarn.take 5⟩ }

/-- The `summary` string of the /analyze response, derived from the computed
analysis counts. -/
def summaryFrom (a : Analysis) : String :=
  ("Analyzed ") ++ toString a.totalLines ++ (" log lines: ") ++ toString a.critical
    ++ (" critical, ") ++ toString a.errors ++ (" errors, ") ++ toString a.warnings ++ (" warnings")

/-- The POST /analyze handler of the log-analyzer agent
(agents/log-analyzer/src/index.ts lines 172-270). `st` is the current state
of the module-level `ERROR_PATTERNS` regexes. `sanRes` is the outcome of the
nested `axios.post` to the sanitizer (`none` models the catch branch taken on
network error, timeout or error status: the handler keeps the original data
and a null `sanitization`). A falsy `data` (absent or empty) is rejected with
the 400 error; otherwise the handler analyzes the (possibly sanitized) text
and returns the 200 response. -/
def analyzeHandler (st : RegexStates) (sanRes : Option SanitizeOk) (data : String) : Except (Nat × String) AnalyzeResponse :=
  if data = ("") then Except.error (400, ("Missing required field: data"))
  else
    let sanitizedData :=
      match sanRes with
      | some r => r.sanitized
      | none => data
    let sanitizationInfo := Option.map (fun (r : SanitizeOk) => SanitizationInfo.mk r.count r.message) sanRes
    let a := analysisOf st sanitizedData
    Except.ok
      { success := true,
        analysis := a,
        sanitization := sanitizationInfo,
        agentToAgentCall := ⟨("sanitizer"), sanitizerURL, sanitizationInfo.isSome⟩,
        summary := summaryFrom a,
        message := ("Log analysis complete with sanitization") }

/-! Shared concrete fixtures used by witnesses and counterexamples. -/

/-- A simple executor environment over string payloads: every dispatch
succeeds and echoes its input; truthiness is nonemptiness of the string. -/
def strEnv : ExecEnv String :=
  ⟨fun _ _ d => Except.ok d, fun s => !(s == ("")), fun _ => ("completed")⟩

/-- A registered test agent named a. -/
def aInfo : AgentInfo := ⟨("a"), ("http://localhost:9"), []⟩

/-- A registry holding exactly the agent a. -/
def cRegistry : Registry := [(("a"), aInfo)]

/-- A step whose input source names an agent that has produced no result. -/
def ghostStep : PlanStep := PlanStep.mk ("a") ("t") ("ghost") none

/-- A step targeting an agent absent from the registry. -/
def missingStep : PlanStep := PlanStep.mk ("missing") ("t") ("user") none

/-- A step taking its input from the user payload. -/
def userStep : PlanStep := PlanStep.mk ("x") ("t") ("user") none

/-! Helper lemmas about association lists, for the registry claims. -/

lemma keys_nil {β : Type} : keys ([] : List (String × β)) = [] := rfl

lemma keys_cons {β : Type} (p : String × β) (rest : List (String × β)) :
    keys (p :: rest) = p.1 :: keys rest := rfl

lemma getAll_nil : getAll [] = [] := rfl

lemma getAll_cons (p : String × AgentInfo) (rest : Registry) :
    getAll (p :: rest) = p.2 :: getAll rest := rfl

lemma keys_assocSet_of_mem {β : Type} (m : List (String × β)) (k : String) (v : β)
    (h : k ∈ keys m) : keys (assocSet m k v) = keys m := by
  induction m with
  | nil => simp [keys_nil] at h
  | cons p rest ih =>
    by_cases hp : p.1 = k
    · simp [assocSet, hp, keys_cons]
    · have h2 : k ∈ keys rest := by
        rw [keys_cons] at h
        rcases List.mem_cons.mp h with h1 | h1
        · exact absurd h1.symm hp
        · exact h1
      simp [assocSet, hp, keys_cons, ih h2]

lemma keys_assocSet_of_not_mem {β : Type} (m : List (String × β)) (k : String) (v : β)
    (h : k ∉ keys m) : keys (assocSet m k v) = keys m ++ [k] := by
  induction m with
  | nil => simp [assocSet, keys_cons, keys_nil]
  | cons p rest ih =>
    have hp : p.1 ≠ k := by
      intro he
      exact h (by rw [keys_cons, he]; exact List.mem_cons_self k (keys rest))
    have h2 : k ∉ keys rest := by
      intro hk
      exact h (by rw [keys_cons]; exact List.mem_cons_of_mem p.1 hk)
    simp [assocSet, hp, keys_cons, ih h2]

lemma assocLookup_assocSet_self {β : Type} (m : List (String × β)) (k : String) (v : β) :
    assocLookup (assocSet m k v) k = some v := by
  induction m with
  | nil => simp [assocSet, assocLookup]
  | cons p rest ih =>
    by_cases hp : p.1 = k
    · simp [assocSet, hp, assocLookup]
    · simp [assocSet, hp, assocLookup, ih]

lemma nodup_keys_assocSet {β : Type} (m : List (String × β)) (k : String) (v : β)
    (h : (keys m).Nodup) : (keys (assocSet m k v)).Nodup := by
  by_cases hm : k ∈ keys m
  · rw [keys_assocSet_of_mem m k v hm]; exact h
  · rw [keys_assocSet_of_not_mem m k v hm]
    simp [List.nodup_append, h, hm]

lemma count_keys_assocSet {β : Type} (m : List (String × β)) (k : String) (v : β)
    (h : (keys m).Nodup) : (keys (assocSet m k v)).count k = 1 := by
  by_cases hm : k ∈ keys m
  · rw [keys_assocSet_of_mem m k v hm]
    exact List.count_eq_one_of_mem h hm
  · rw [keys_assocSet_of_not_mem m k v hm]
    simp [List.count_append, List.count_eq_zero.mpr hm]

lemma filter_getAll_of_not_mem (m : Registry) (k : String)
    (hk : k ∉ keys m) (hinv : ∀ p ∈ m, p.1 = p.2.name) :
    (getAll m).filter (fun a => a.name == k) = [] := by
  induction m with
  | nil => simp [getAll_nil]
  | cons p rest ih =>
    have hp : p.1 ≠ k := by
      intro he
      exact hk (by rw [keys_cons, he]; exact List.mem_cons_self k (keys rest))
    have hname : p.2.name ≠ k := by
      rw [← hinv p (List.mem_cons_self p rest)]
      exact hp
    have h2 : k ∉ keys rest := by
      intro h
      exact hk (by rw [keys_cons]; exact List.mem_cons_of_mem p.1 h)
    have hinv2 : ∀ q ∈ rest, q.1 = q.2.name := fun q hq => hinv q (List.mem_cons_of_mem p hq)
    simp [getAll_cons, List.filter_cons, hname, ih h2 hinv2]

lemma filter_getAll_assocSet (m : Registry) (k : String) (v : AgentInfo)
    (hn : (keys m).Nodup) (hinv : ∀ p ∈ m, p.1 = p.2.name) (hv : v.name = k) :
    (getAll (assocSet m k v)).filter (fun a => a.name == k) = [v] := by
  induction m with
  | nil => simp [assocSet, getAll_cons, getAll_nil, List.filter_cons, hv]
  | cons p rest ih =>
    rw [keys_cons] at hn
    have hn1 : p.1 ∉ keys rest := (List.nodup_cons.mp hn).1
    have hn2 : (keys rest).Nodup := (List.nodup_cons.mp hn).2
    have hinv2 : ∀ q ∈ rest, q.1 = q.2.name := fun q hq => hinv q (List.mem_cons_of_mem p hq)
    by_cases hp : p.1 = k
    · have hrest : k ∉ keys rest := by
        rw [← hp]
        exact hn1
      simp [assocSet, hp, getAll_cons, List.filter_cons, hv,
        filter_getAll_of_not_mem rest k hrest hinv2]
    · have hname : p.2.name ≠ k := by
        rw [← hinv p (List.mem_cons_self p rest)]
        exact hp
      simp [assocSet, hp, getAll_cons, List.filter_cons, hname, ih hn2 hinv2]

lemma assocSet_assocSet_same {β : Type} (m : List (String × β)) (k : String) (v1 v2 : β) :
    assocSet (assocSet m k v1) k v2 = assocSet m k v2 := by
  induction m with
  | nil => simp [assocSet]
  | cons p rest ih =>
    by_cases hp : p.1 = k
    · simp [assocSet, hp]
    · simp [assocSet, hp, ih]

/-! Helper lemmas about the executor, for the fail-fast claims. -/

lemma execSteps_err_of_missing {α : Type} (env : ExecEnv α) (reg : Registry) (init : α) :
    ∀ (plan : List PlanStep) (results : List (String × α)) (trace : List String),
    (∃ s, s ∈ plan ∧ lookupAgent reg s.agent = none) →
    ∃ msg, (execSteps env reg init plan results trace).outcome = Outcome.err msg := by
  intro plan
  induction plan with
  | nil =>
    rintro results trace ⟨s, hs, -⟩
    exact absurd hs (List.not_mem_nil s)
  | cons s rest ih =>
    rintro results trace ⟨t, ht, hnone⟩
    cases hlook : lookupAgent reg s.agent with
    | none => exact ⟨notFoundMsg s.agent, by simp [execSteps, hlook]⟩
    | some agentDesc =>
      cases hri : resolveInput env.truthy init results s with
      | error e => exact ⟨e, by simp [execSteps, hlook, hri]⟩
      | ok input =>
        cases hc : env.call agentDesc (getEndpointForTask s.agent s.task) input with
        | error e => exact ⟨failMsg s.agent e, by simp [execSteps, hlook, hri, hc]⟩
        | ok resp =>
          have htrest : t ∈ rest := by
            rcases List.mem_cons.mp ht with h | h
            · rw [h] at hnone
              rw [hlook] at hnone
              exact absurd hnone (by simp)
            · exact h
          obtain ⟨msg, hmsg⟩ := ih (assocSet results s.agent resp)
            (trace ++ [traceEntry s.agent (env.traceOf resp)]) ⟨t, htrest, hnone⟩
          exact ⟨msg, by simp only [execSteps, hlook, hri, hc]; exact hmsg⟩

lemma execSteps_dispatched_takeWhile {α : Type} (env : ExecEnv α) (reg : Registry) (init : α) :
    ∀ (plan : List PlanStep) (results : List (String × α)) (trace : List String),
    (execSteps env reg init plan results trace).dispatched
      <+: (plan.takeWhile (fun s => (lookupAgent reg s.agent).isSome)).map PlanStep.agent := by
  intro plan
  induction plan with
  | nil => intro results trace; simp [execSteps]
  | cons s rest ih =>
    intro results trace
    cases hlook : lookupAgent reg s.agent with
    | none => simp [execSteps, hlook, List.takeWhile_cons]
    | some agentDesc =>
      cases hri : resolveInput env.truthy init results s with
      | error e => simp [execSteps, hlook, hri, List.takeWhile_cons]
      | ok input =>
        cases hc : env.call agentDesc (getEndpointForTask s.agent s.task) input with
        | error e =>
          simp [execSteps, hlook, hri, hc, List.takeWhile_cons]
        | ok resp =>
          have h := ih (assocSet results s.agent resp)
            (trace ++ [traceEntry s.agent (env.traceOf resp)])
          obtain ⟨t, ht⟩ := h
          simp [execSteps, hlook, hri, hc, List.takeWhile_cons]
          exact ⟨t, by rw [← ht]⟩

/-! The claims. -/

/-- Claim C1: when the nested sanitizer call fails, the /analyze handler of
the log-analyzer still returns its 200 success response, whose analysis is
computed over the original, unmodified input data, with all success-contract
fields present, sanitization null and agentToAgentCall.success false; the
nested failure is not propagated as a failure of the /analyze call. -/
theorem c1_theorem : ∀ (st : RegexStates) (data : String), data ≠ ("") →
    analyzeHandler st none data = Except.ok
      { success := true,
        analysis := analysisOf st data,
        sanitization := none,
        agentToAgentCall := ⟨("sanitizer"), sanitizerURL, false⟩,
        summary := summaryFrom (analysisOf st data),
        message := ("Log analysis complete with sanitization") } := by
  intro st data h
  simp [analyzeHandler, h]

/-- Claim C1 witness: the theorem applied at a concrete invocation. -/
theorem c1_witness : analyzeHandler initialRegexStates none ("x") = Except.ok
    { success := true,
      analysis := analysisOf initialRegexStates ("x"),
      sanitization := none,
      agentToAgentCall := ⟨("sanitizer"), sanitizerURL, false⟩,
      summary := summaryFrom (analysisOf initialRegexStates ("x")),
      message := ("Log analysis complete with sanitization") } :=
  c1_theorem initialRegexStates ("x") (by decide)

/-- Claim C2: when both the analysis and the report predicates match, the
plan is exactly the log-analyzer step (task analyze, input user) followed by
the report-generator step sourcing from and depending on log-analyzer; when
the report predicate matches without the analysis predicate, the plan is
exactly the report-generator step with input user and no dependency. -/
theorem c2_theorem : ∀ r : String,
    (needsLogAnalyst r = true → needsReport r = true →
      generatePlan r = [PlanStep.mk ("log-analyzer") ("analyze") ("user") none,
        PlanStep.mk ("report-generator") ("generate") ("log-analyzer") (some ("log-analyzer"))]) ∧
    (needsReport r = true → needsLogAnalyst r = false →
      generatePlan r = [PlanStep.mk ("report-generator") ("generate") ("user") none]) := by
  intro r
  constructor
  · intro hla hr
    simp [generatePlan, hla, hr]
  · intro hr hla
    simp [generatePlan, hla, hr]

/-- Claim C2 witness: the theorem applied at two concrete requests. -/
theorem c2_witness :
    generatePlan ("analyze report") = [PlanStep.mk ("log-analyzer") ("analyze") ("user") none,
      PlanStep.mk ("report-generator") ("generate") ("log-analyzer") (some ("log-analyzer"))] ∧
    generatePlan ("report") = [PlanStep.mk ("report-generator") ("generate") ("user") none] :=
  ⟨(c2_theorem ("analyze report")).1 (by decide) (by decide),
   (c2_theorem ("report")).2 (by decide) (by decide)⟩

/-- Payload type for the end-to-end scenario: either raw text (the user's
data) or a log-analyzer /analyze response. -/
inductive LAPayload where
  | str : String → LAPayload
  | resp : AnalyzeResponse → LAPayload
deriving DecidableEq

/-- JavaScript truthiness of an LAPayload: the empty string is falsy,
response objects are truthy. -/
def laTruthy : LAPayload → Bool
  | LAPayload.str s => !(s == (""))
  | LAPayload.resp _ => true

/-- Trace text of an LAPayload: an /analyze response contributes its summary
field, a raw string has no summary or message field. -/
def laTrace : LAPayload → String
  | LAPayload.str _ => ("completed")
  | LAPayload.resp r => r.summary

/-- Network oracle for the scenario: the dispatched log-analyzer runs its
/analyze handler from a fresh regex state with the sanitizer unreachable
(the nested call fails and is absorbed by the handler). -/
def laCall : AgentInfo → String → LAPayload → Except String LAPayload :=
  fun _ _ input =>
    match input with
    | LAPayload.str d =>
      match analyzeHandler initialRegexStates none d with
      | Except.ok r => Except.ok (LAPayload.resp r)
      | Except.error e => Except.error e.2
    | LAPayload.resp _ => Except.error ("unexpected input")

/-- The executor environment of the end-to-end scenario. -/
def laEnv : ExecEnv LAPayload := ⟨laCall, laTruthy, laTrace⟩

/-- The log-analyzer's registration descriptor (its /register payload). -/
def laInfo : AgentInfo :=
  ⟨("log-analyzer"), ("http://localhost:5002"),
   [⟨("analyze"),
     ("Analyzes system logs for errors, warnings, and critical issues. Calls sanitizer agent internally."),
     ("\x7b data: string \x7d")⟩]⟩

/-- The request of the end-to-end scenario. -/
def c3Request : String := "Analyze these logs for errors"

/-- The scenario's input data: one line matching the critical vocabulary and
one line matching the warning vocabulary. -/
def c3Data : String := "fatal: disk crash\nwarning: low memory"

/-- Registry of the scenario: the log-analyzer has registered. -/
def c3Registry : Registry := register [] laInfo

/-- The full /plan-and-run round trip of the scenario. -/
def c3Run : PlanRunResponse LAPayload × List String :=
  planAndRun laEnv c3Registry LAPayload.str ⟨some c3Request, some (LAPayload.str c3Data)⟩

/-- The analysis stored under log-analyzer in the aggregated results of a
/plan-and-run success response. -/
def analysisInResults (resp : PlanRunResponse LAPayload) : Option Analysis :=
  match resp with
  | PlanRunResponse.ok _ _ results _ =>
    match assocLookup results ("log-analyzer") with
    | some (LAPayload.resp r) => some r.analysis
    | _ => none
  | _ => none

/-- Claim C3: for the request Analyze these logs for errors with data holding
one critical-vocabulary line and one warning-vocabulary line, the plan is
exactly the single log-analyzer step, and the aggregated execution result's
analysis reports exactly 1 critical and exactly 1 warning. -/
theorem c3_theorem :
    generatePlan c3Request = [PlanStep.mk ("log-analyzer") ("analyze") ("user") none] ∧
    Option.map Analysis.critical (analysisInResults c3Run.1) = some 1 ∧
    Option.map Analysis.warnings (analysisInResults c3Run.1) = some 1 := by
  refine ⟨by decide, by decide, by decide⟩

/-- Claim C4 counterexample: the empty request string matches none of the
three predicates and the Planner maps it to the empty plan, yet the
/plan-and-run boundary answers it with the 400 missing-field rejection, not
with the No agents matched the request response the claim requires. -/
theorem c4_counterexample :
    needsSanitizer ("") = false ∧ needsLogAnalyst ("") = false ∧ needsReport ("") = false ∧
    generatePlan ("") = [] ∧
    planAndRun strEnv [] (fun s => s) (PlanRunBody.mk (some ("")) none)
      = (PlanRunResponse.badRequest missingRequestMsg, []) ∧
    (PlanRunResponse.badRequest missingRequestMsg : PlanRunResponse String)
      ≠ PlanRunResponse.noAgents noAgentsMsg [] [] := by
  decide

/-- Claim C4 (amended to nonempty requests, which are the ones that reach the
Planner): for every nonempty request string matching none of the three
predicates, the Planner returns the empty plan and the boundary returns the
No agents matched the request response with empty plan and empty results,
dispatching nothing. -/
theorem c4_theorem : ∀ (α : Type) (env : ExecEnv α) (reg : Registry) (toP : String → α)
    (d : Option α) (r : String),
    r ≠ ("") →
    needsSanitizer r = false → needsLogAnalyst r = false → needsReport r = false →
    generatePlan r = [] ∧
    planAndRun env reg toP (PlanRunBody.mk (some r) d)
      = (PlanRunResponse.noAgents noAgentsMsg [] [], []) := by
  intro α env reg toP d r hr hs hla hrep
  have hplan : generatePlan r = [] := by
    simp [generatePlan, hs, hla, hrep]
  exact ⟨hplan, by simp [planAndRun, hr, hplan]⟩

/-- Claim C4 witness: the amended theorem applied at a concrete request. -/
theorem c4_witness :
    generatePlan ("hello") = [] ∧
    planAndRun strEnv [] (fun s => s) (PlanRunBody.mk (some ("hello")) none)
      = (PlanRunResponse.noAgents noAgentsMsg [] [], []) :=
  c4_theorem String strEnv [] (fun s => s) none ("hello")
    (by decide) (by decide) (by decide) (by decide)

/-- Claim C5: from any well-formed registry state (distinct keys, each entry
stored under its descriptor's name), registering d1 and then d2 under the
same name leaves exactly one entry for that name, which is d2: the key
occurs once, lookup returns d2, getAll holds exactly one descriptor of that
name (namely d2) and its keys stay duplicate-free; and registering the very
same descriptor twice equals registering it once. -/
theorem c5_theorem :
    (∀ (m : Registry) (nm : String) (d1 d2 : AgentInfo),
      d1.name = nm → d2.name = nm → (keys m).Nodup → (∀ p ∈ m, p.1 = p.2.name) →
      (keys (register (register m d1) d2)).count nm = 1 ∧
      lookupAgent (register (register m d1) d2) nm = some d2 ∧
      (getAll (register (register m d1) d2)).filter (fun a => a.name == nm) = [d2] ∧
      (keys (register (register m d1) d2)).Nodup) ∧
    (∀ (m : Registry) (d : AgentInfo), register (register m d) d = register m d) := by
  constructor
  · intro m nm d1 d2 h1 h2 hn hinv
    have hred : register (register m d1) d2 = assocSet m nm d2 := by
      rw [register, register, h1, h2, assocSet_assocSet_same]
    rw [hred]
    exact ⟨count_keys_assocSet m nm d2 hn,
      assocLookup_assocSet_self m nm d2,
      filter_getAll_assocSet m nm d2 hn hinv h2,
      nodup_keys_assocSet m nm d2 hn⟩
  · intro m d
    rw [register, register, assocSet_assocSet_same]

/-- Agent descriptor of the C5 witness, first registration. -/
def dOld : AgentInfo := ⟨("a"), ("http://old"), []⟩

/-- Agent descriptor of the C5 witness, second registration. -/
def dNew : AgentInfo := ⟨("a"), ("http://new"), []⟩

/-- Claim C5 witness: the theorem applied at a concrete double registration. -/
theorem c5_witness :
    (keys (register (register [] dOld) dNew)).count ("a") = 1 ∧
    lookupAgent (register (register [] dOld) dNew) ("a") = some dNew ∧
    (getAll (register (register [] dOld) dNew)).filter (fun a => a.name == ("a")) = [dNew] ∧
    (keys (register (register [] dOld) dNew)).Nodup :=
  c5_theorem.1 [] ("a") dOld dNew rfl rfl (by decide) (by intro p hp; exact absurd hp (List.not_mem_nil p))

/-- Claim C6 (amended): whenever execution reaches a step whose target agent
is absent from the registry, the executor throws exactly the error naming
that agent and dispatches nothing from that point on; any plan containing a
step with an unregistered agent never returns success; and the dispatched
calls always form a prefix of the agents of the steps strictly before the
first unresolvable step, so nothing is dispatched for a missing-agent step or
for any step after it. (As literally stated the claim is false: when an
earlier step fails first, the reported error is that earlier failure and need
not name the missing agent — see the counterexample.) -/
theorem c6_theorem : ∀ (α : Type) (env : ExecEnv α) (reg : Registry) (init : α),
    (∀ (s : PlanStep) (rest : List PlanStep) (results : List (String × α)) (trace : List String),
      lookupAgent reg s.agent = none →
      execSteps env reg init (s :: rest) results trace
        = ⟨Outcome.err (notFoundMsg s.agent), []⟩) ∧
    (∀ (plan : List PlanStep) (results : List (String × α)) (trace : List String),
      (∃ s, s ∈ plan ∧ lookupAgent reg s.agent = none) →
      ∃ msg, (execSteps env reg init plan results trace).outcome = Outcome.err msg) ∧
    (∀ (plan : List PlanStep) (results : List (String × α)) (trace : List String),
      (execSteps env reg init plan results trace).dispatched
        <+: (plan.takeWhile (fun s => (lookupAgent reg s.agent).isSome)).map PlanStep.agent) := by
  intro α env reg init
  refine ⟨?_, execSteps_err_of_missing env reg init, execSteps_dispatched_takeWhile env reg init⟩
  intro s rest results trace hlook
  simp [execSteps, hlook]

/-- Claim C6 witness: the theorem applied at a concrete one-step plan whose
agent is unregistered. -/
theorem c6_witness :
    execSteps strEnv [] ("d") [missingStep] [] []
      = ⟨Outcome.err (notFoundMsg ("missing")), []⟩ ∧
    (∃ msg, (execSteps strEnv [] ("d") [missingStep] [] []).outcome = Outcome.err msg) ∧
    (execSteps strEnv [] ("d") [missingStep] [] []).dispatched
      <+: ([missingStep].takeWhile (fun s => (lookupAgent [] s.agent).isSome)).map PlanStep.agent := by
  have h := c6_theorem String strEnv [] ("d")
  exact ⟨h.1 missingStep [] [] [] rfl,
    h.2.1 [missingStep] [] [] ⟨missingStep, by decide, rfl⟩,
    h.2.2 [missingStep] [] []⟩

/-- Claim C6 counterexample: in the plan [ghostStep, missingStep] against a
registry holding only agent a, the second step's agent is absent, yet
executePlan fails with the dependency error of the first step, whose message
does not name the missing agent; so the claim as stated (some step's agent
absent implies the reported error names that agent) is false. -/
theorem c6_counterexample : ¬ (∀ (plan : List PlanStep) (reg : Registry),
    (∃ s, s ∈ plan ∧ lookupAgent reg s.agent = none) →
    ∃ s msg, s ∈ plan ∧ lookupAgent reg s.agent = none ∧
      (execSteps strEnv reg ("d") plan [] []).outcome = Outcome.err msg ∧
      containsSub s.agent.data msg.data = true) := by
  intro h
  obtain ⟨s, msg, hmem, hnone, hout, hcontain⟩ :=
    h [ghostStep, missingStep] cRegistry ⟨missingStep, by decide, by decide⟩
  have hout2 : (execSteps strEnv cRegistry ("d") [ghostStep, missingStep] [] []).outcome
      = Outcome.err (depErrMsg ("ghost")) := by decide
  rw [hout2] at hout
  have hmsg : msg = depErrMsg ("ghost") := by
    cases hout
    rfl
  rw [hmsg] at hcontain
  have hs : s = ghostStep ∨ s = missingStep := by
    simpa using hmem
  rcases hs with hs | hs
  · rw [hs] at hnone
    exact absurd hnone (by decide)
  · rw [hs] at hcontain
    exact absurd hcontain (by decide)

/-- Claim C7 (amended: the step's target agent must itself resolve, since the
registry lookup precedes input resolution in the step loop): when execution
reaches a step whose input source is not user, whose source agent has no
entry in the results mapping, and whose target agent is registered, the
executor fails fast with the dependency error naming the source agent and
dispatches neither that step nor any remaining step. -/
theorem c7_theorem : ∀ (α : Type) (env : ExecEnv α) (reg : Registry) (init : α)
    (s : PlanStep) (rest : List PlanStep) (results : List (String × α))
    (trace : List String) (agentDesc : AgentInfo),
    s.inputFrom ≠ ("user") →
    assocLookup results s.inputFrom = none →
    lookupAgent reg s.agent = some agentDesc →
    execSteps env reg init (s :: rest) results trace
      = ⟨Outcome.err (depErrMsg s.inputFrom), []⟩ := by
  intro α env reg init s rest results trace agentDesc hin hres hlook
  simp [execSteps, hlook, resolveInput, hin, hres]

/-- Claim C7 witness: the theorem applied at a concrete step with an
unsatisfied dependency. -/
theorem c7_witness :
    execSteps strEnv cRegistry ("d") [ghostStep] [] []
      = ⟨Outcome.err (depErrMsg ("ghost")), []⟩ :=
  c7_theorem String strEnv cRegistry ("d") ghostStep [] [] [] aInfo
    (by decide) rfl (by decide)

/-- Claim C7 counterexample: a step whose input source ghost has no results
entry but whose target agent is also unregistered makes executePlan throw the
agent-not-found error, which does not name the source agent; so the claim as
stated (no results entry implies a dependency error naming the source agent)
is false without the registered-agent proviso. -/
theorem c7_counterexample : ¬ (∀ (s : PlanStep) (rest : List PlanStep) (reg : Registry)
    (results : List (String × String)) (trace : List String),
    s.inputFrom ≠ ("user") →
    assocLookup results s.inputFrom = none →
    ∃ msg, (execSteps strEnv reg ("d") (s :: rest) results trace).outcome = Outcome.err msg ∧
      containsSub s.inputFrom.data msg.data = true) := by
  intro h
  obtain ⟨msg, hout, hcontain⟩ :=
    h (PlanStep.mk ("missing") ("t") ("ghost") none) [] [] [] [] (by decide) rfl
  have hout2 : (execSteps strEnv [] ("d") [PlanStep.mk ("missing") ("t") ("ghost") none] [] []).outcome
      = Outcome.err (notFoundMsg ("missing")) := by decide
  rw [hout2] at hout
  have hmsg : msg = notFoundMsg ("missing") := by
    cases hout
    rfl
  rw [hmsg] at hcontain
  exact absurd hcontain (by decide)

/-- The planner as invoked at the /plan-and-run call site, where the live
registry is in scope: planner.ts imports only the types module and
generatePlan reads nothing but the request, so the registry parameter is
ignored by construction. -/
def generatePlanInContext (reg : Registry) (r : String) : List PlanStep := generatePlan r

/-- Claim C8: the Planner is deterministic (equal requests give equal plans)
and independent of registry state (the plan computed in the presence of any
two registry states is the same, and equals the pure generatePlan result). -/
theorem c8_theorem : ∀ (r : String) (reg reg' : Registry),
    generatePlan r = generatePlan r ∧
    generatePlanInContext reg r = generatePlanInContext reg' r ∧
    generatePlanInContext reg r = generatePlan r := by
  intro r reg reg'
  exact ⟨rfl, rfl, rfl⟩

/-- Claim C9: when the /plan-and-run body omits data (or supplies a falsy
data value), the executor is invoked with the request string itself (embedded
as a payload) as initial payload, and any step with input source user
resolves to exactly that initial payload. -/
theorem c9_theorem : ∀ (α : Type) (env : ExecEnv α) (reg : Registry) (toP : String → α)
    (r : String) (d : α) (results : List (String × α)) (s : PlanStep) (init : α),
    r ≠ ("") → generatePlan r ≠ [] →
    planAndRun env reg toP (PlanRunBody.mk (some r) none)
      = runPlanWith env reg r (generatePlan r) (toP r) ∧
    (env.truthy d = false →
      planAndRun env reg toP (PlanRunBody.mk (some r) (some d))
        = runPlanWith env reg r (generatePlan r) (toP r)) ∧
    (s.inputFrom = ("user") → resolveInput env.truthy init results s = Except.ok init) := by
  intro α env reg toP r d results s init hr hplan
  refine ⟨?_, ?_, ?_⟩
  · simp [planAndRun, hr, hplan]
  · intro hd
    simp [planAndRun, hr, hplan, hd]
  · intro hs
    simp [resolveInput, hs]

/-- Claim C9 witness: the theorem applied at a concrete request with omitted
and with falsy data. -/
theorem c9_witness :
    planAndRun strEnv [] (fun s => s) (PlanRunBody.mk (some ("analyze")) none)
      = runPlanWith strEnv [] ("analyze") (generatePlan ("analyze")) ("analyze") ∧
    planAndRun strEnv [] (fun s => s) (PlanRunBody.mk (some ("analyze")) (some ("")))
      = runPlanWith strEnv [] ("analyze") (generatePlan ("analyze")) ("analyze") ∧
    resolveInput strEnv.truthy ("analyze") [] userStep = Except.ok ("analyze") := by
  have h := c9_theorem String strEnv [] (fun s => s) ("analyze") ("") [] userStep ("analyze")
    (by decide) (by decide)
  exact ⟨h.1, h.2.1 (by decide), h.2.2 rfl⟩

/-- Claim C10: a /plan-and-run body whose request field is present but equal
to the empty string is rejected with the 400 missing-field response (nothing
dispatched), and this response is not the no-agents empty-plan 200 response. -/
theorem c10_theorem : ∀ (α : Type) (env : ExecEnv α) (reg : Registry)
    (toP : String → α) (d : Option α),
    planAndRun env reg toP (PlanRunBody.mk (some ("")) d)
      = (PlanRunResponse.badRequest missingRequestMsg, []) ∧
    planAndRun env reg toP (PlanRunBody.mk (some ("")) d)
      ≠ (PlanRunResponse.noAgents noAgentsMsg [] [], []) := by
  intro α env reg toP d
  constructor
  · simp [planAndRun]
  · simp [planAndRun]

end Chimera
